import Mathlib

/-!
The configuration resolution of journald-cloudwatch-logs (`config.go`).

A shallow embedding of `config.go` and a verification of its behaviour.

* Go strings are Lean `String`s, Go `int` is `Int` (no arithmetic is performed on it).
* A Go `error` value is represented by its message; a nil error is `none`.
* The collaborators (file system, HCL decoder, EC2 metadata client, EC2 service) are the
  fields of `Env`.  Every I/O collaborator receives the history of calls made so far, so
  that its answer may change from one call to the next.
* Every effectful function receives the call history, and returns its Go result together
  with the extended history and the text it wrote to standard output (`Run`).
-/

namespace JournaldCloudwatchLogs

/-! ## Data model -/

/-- A Go `error`, identified with the text of its `Error()` method. -/
abbrev GoError := String

/-- Modelled from the spec: the `Priority` type and its eight constants are declared in a
file that is not part of `config.go`; the spec describes them as the ordered enumeration
EMERGENCY < ALERT < CRITICAL < ERROR < WARNING < NOTICE < INFO < DEBUG. -/
inductive Priority
  | EMERGENCY | ALERT | CRITICAL | ERROR | WARNING | NOTICE | INFO | DEBUG
deriving DecidableEq, Repr

open Priority

/-- The constant `DEV_DEBUG` of `config.go`. -/
def DEV_DEBUG : Bool := true

/-- The constant `TEST_INSTANCE_ID` of `config.go`. -/
def TEST_INSTANCE_ID : String := "i-01d5db425dc49f060"

/-- The map literal `logLevels` of `getLogLevel`, as the list of its key/value entries in
the order of the source text.  Each value is a two-element slice `{s[0], s[1]}`. -/
def logLevels : List (Priority × String × String) :=
  [ (EMERGENCY, "0", "emerg"),
    (ALERT,     "1", "alert"),
    (CRITICAL,  "2", "crit"),
    (ERROR,     "3", "err"),
    (WARNING,   "4", "warning"),
    (NOTICE,    "5", "notice"),
    (INFO,      "6", "info"),
    (DEBUG,     "7", "debug") ]

/-- The `for i, s := range logLevels` loop of `getLogLevel` followed by the final
`return DEBUG, fmt.Errorf(...)`.  `order` is the sequence in which the `range` statement
visits the entries of the map. -/
def getLogLevel (order : List (Priority × String × String)) (priority : String) :
    Priority × Option GoError :=
  match order with
  | [] => (DEBUG, some ("'" ++ priority ++ "' is unsupported log priority"))
  | (i, s) :: rest =>
    if s.1 = priority ∨ s.2 = priority then (i, none)
    else getLogLevel rest priority

/-- The sixteen aliases of the level table. -/
def aliases : List String :=
  ["0", "emerg", "1", "alert", "2", "crit", "3", "err",
   "4", "warning", "5", "notice", "6", "info", "7", "debug"]

/-- The struct `fileConfig`: the settings as decoded from the configuration file. -/
structure fileConfig where
  AWSRegion : String
  EC2InstanceId : String
  LogGroupName : String
  LogStreamName : String
  LogPriority : String
  StateFilename : String
  JournalDir : String
  BufferSize : Int
deriving DecidableEq, Repr

/-- The two credential providers that `LoadConfig` chains. -/
inductive Provider
  | EnvProvider | EC2RoleProvider
deriving DecidableEq, Repr

/-- The struct `Config`.  `AWSCredentials` is a pointer in the source: `none` is nil, and a
chain of credentials is the list of its providers in order. -/
structure Config where
  AWSCredentials : Option (List Provider)
  AWSRegion : String
  EC2InstanceId : String
  LogGroupName : String
  LogStreamName : String
  LogPriority : Priority
  StateFilename : String
  JournalDir : String
  BufferSize : Int
deriving DecidableEq, Repr

/-- The value of `&Config{}`: every field at its zero value (`EMERGENCY` is numeric code 0). -/
def Config.zero : Config :=
  { AWSCredentials := none, AWSRegion := "", EC2InstanceId := "", LogGroupName := "",
    LogStreamName := "", LogPriority := EMERGENCY, StateFilename := "", JournalDir := "",
    BufferSize := 0 }

/-- An EC2 tag of a describe-instances response: a key and a value.  The SDK holds both
behind pointers, which `FindInstanceName` dereferences without a nil test; they are taken
to be set, as they are in every response that the SDK decodes. -/
structure Tag where
  Key : String
  Value : String
deriving DecidableEq, Repr

/-- An instance record of a describe-instances response, reduced to the tags it carries. -/
structure Instance where
  Tags : List Tag
deriving DecidableEq, Repr

/-- A reservation record of a describe-instances response. -/
structure Reservation where
  Instances : List Instance
deriving DecidableEq, Repr

/-- The response of `DescribeInstances`: zero or more reservations, each with zero or more
instances, each instance carrying key/value tags. -/
structure DescribeInstancesOutput where
  Reservations : List Reservation
deriving DecidableEq, Repr

/-- A call to a collaborator that performs input/output. -/
inductive Call
  | readFile (filename : String)
  | getMetadata (path : String)
  | region
  | describeInstances (instanceId : String) (region : String)
deriving DecidableEq, Repr

/-- The collaborators of `config.go`.  Each I/O collaborator is given the calls made
before the present one; `hclDecode` is the (pure) decoder of the configuration text;
`rangeOrder` is the order in which `range` visits the level table of `getLogLevel`. -/
structure Env where
  readFile : List Call → String → Except GoError String
  hclDecode : String → Except GoError fileConfig
  getMetadata : List Call → String → Except GoError String
  region : List Call → Except GoError String
  describeInstances : List Call → String → String → Except GoError DescribeInstancesOutput
  rangeOrder : List (Priority × String × String)
  rangeOrder_perm : rangeOrder.Perm logLevels

/-- The outcome of running an effectful function: its Go return values, the call history
after it, and the text it wrote to standard output. -/
structure Run (α : Type) where
  ret : α
  calls : List Call
  out : List String

/-- The function `FindInstanceId`. -/
def FindInstanceId (env : Env) (calls : List Call) : Run (String × Option GoError) :=
  let calls1 := calls ++ [Call.getMetadata "instance-id"]
  match env.getMetadata calls "instance-id" with
  | .error err =>
    if DEV_DEBUG then ⟨(TEST_INSTANCE_ID, none), calls1, []⟩
    else ⟨("", some ("unable to detect EC2 instance id: " ++ err)), calls1, []⟩
  | .ok instanceId => ⟨(instanceId, none), calls1, []⟩

/-- The function `FindAZ`. -/
def FindAZ (env : Env) (calls : List Call) : Run (String × Option GoError) :=
  let calls1 := calls ++ [Call.getMetadata "placement/availability-zone"]
  match env.getMetadata calls "placement/availability-zone" with
  | .error err =>
    if DEV_DEBUG then ⟨("NO_AZ", none), calls1, []⟩
    else ⟨("", some ("unable to detect EC2 az id: " ++ err)), calls1, []⟩
  | .ok az => ⟨(az, none), calls1, []⟩

/-- The loop `for _, tag := range instance.Tags` of `FindInstanceName`: the value returned
from inside the loop, if any, and the lines printed. -/
def FindInstanceName.tagLoop : List Tag → Option String × List String
  | [] => (none, [])
  | tag :: rest =>
    if tag.Key = "Name" then (some tag.Value, [])
    else
      let r := FindInstanceName.tagLoop rest
      (r.1, ("KEY " ++ tag.Key ++ "\n") :: r.2)

/-- The function `FindInstanceName`.  The session argument only carries configuration and
is not represented. -/
def FindInstanceName (env : Env) (calls : List Call) (instanceId : String) (region : String) :
    Run (String × Option GoError) :=
  let name := "NO_NAME"
  let calls1 := calls ++ [Call.describeInstances instanceId region]
  match env.describeInstances calls instanceId region with
  | .error err => ⟨(name, some err), calls1, [err ++ "\n"]⟩
  | .ok resp =>
    match resp.Reservations with
    | r0 :: _ =>
      match r0.Instances with
      | inst :: _ =>
        let loop := if inst.Tags.length > 0 then FindInstanceName.tagLoop inst.Tags else (none, [])
        match loop.1 with
        | some value => ⟨(value, none), calls1, loop.2⟩
        | none => ⟨(name, some "Could not find tag"), calls1, loop.2⟩
      | [] => ⟨(name, some "Could not find reservation"), calls1, []⟩
    | [] => ⟨(name, some "Could not find reservation"), calls1, []⟩

/-- The function `LoadConfig`.  The session and the metadata client it creates first are
pure constructions and are represented by `env`. -/
def LoadConfig (env : Env) (calls : List Call) (filename : String) :
    Run (Option Config × Option GoError) :=
  let read := env.readFile calls filename
  let calls := calls ++ [Call.readFile filename]
  match read with
  | .error err => ⟨(none, some err), calls, []⟩
  | .ok configBytes =>
  let config := Config.zero
  match env.hclDecode configBytes with
  | .error err => ⟨(none, some err), calls, []⟩
  | .ok fConfig =>
  -- if fConfig.LogGroupName == ""
  let groupStep : Config × List Call × List String :=
    if fConfig.LogGroupName = "" then
      match env.getMetadata calls "security-groups" with
      | .error _ =>
        let config := { config with LogGroupName := "log_group" }
        (config, calls ++ [Call.getMetadata "security-groups"],
          ["Log group name was not set and can't get from AWS EC2 Meta, using default "
            ++ config.LogGroupName ++ " \n"])
      | .ok group =>
        let config := { config with LogGroupName := group }
        (config, calls ++ [Call.getMetadata "security-groups"],
          ["Log group name set to security group name " ++ config.LogGroupName ++ " \n"])
    else ({ config with LogGroupName := fConfig.LogGroupName }, calls, [])
  let config := groupStep.1
  let calls := groupStep.2.1
  let out := groupStep.2.2
  -- if fConfig.StateFilename == ""
  if fConfig.StateFilename = "" then ⟨(none, some "state_file is required"), calls, out⟩ else
  -- if fConfig.AWSRegion != ""
  let regionStep : Except GoError Config × List Call :=
    if fConfig.AWSRegion ≠ "" then (.ok { config with AWSRegion := fConfig.AWSRegion }, calls)
    else
      match env.region calls with
      | .error err => (.error ("unable to detect AWS region: " ++ err), calls ++ [Call.region])
      | .ok region => (.ok { config with AWSRegion := region }, calls ++ [Call.region])
  match regionStep with
  | (.error err, calls) => ⟨(none, some err), calls, out⟩
  | (.ok config, calls) =>
  -- if fConfig.EC2InstanceId != ""
  let idStep : Except GoError Config × List Call :=
    if fConfig.EC2InstanceId ≠ "" then
      (.ok { config with EC2InstanceId := fConfig.EC2InstanceId }, calls)
    else
      match env.getMetadata calls "instance-id" with
      | .error err =>
        (.error ("unable to detect EC2 instance id: " ++ err),
          calls ++ [Call.getMetadata "instance-id"])
      | .ok instanceId =>
        (.ok { config with EC2InstanceId := instanceId },
          calls ++ [Call.getMetadata "instance-id"])
  match idStep with
  | (.error err, calls) => ⟨(none, some err), calls, out⟩
  | (.ok config, calls) =>
  -- if fConfig.LogPriority == ""
  let priorityStep : Except GoError Config :=
    if fConfig.LogPriority = "" then .ok { config with LogPriority := DEBUG }
    else
      let level := getLogLevel env.rangeOrder fConfig.LogPriority
      match level.2 with
      | some _ =>
        .error ("The provided log filtering '" ++ fConfig.LogPriority
          ++ "' is unsupported by systemd!")
      | none => .ok { config with LogPriority := level.1 }
  match priorityStep with
  | .error err => ⟨(none, some err), calls, out⟩
  | .ok config =>
  -- if fConfig.LogStreamName != ""
  let streamStep : Config × List Call × List String :=
    if fConfig.LogStreamName ≠ "" then
      ({ config with LogStreamName := fConfig.LogStreamName }, calls, [])
    else
      let r1 := FindInstanceId env calls
      let instanceId := r1.ret.1
      let r2 := FindAZ env r1.calls
      let az := r2.ret.1
      let r3 := FindInstanceName env r2.calls instanceId config.AWSRegion
      let name := r3.ret.1
      let config := { config with LogStreamName := name ++ "-" ++ instanceId ++ "-" ++ az }
      (config, r3.calls,
        r1.out ++ r2.out ++ r3.out
          ++ ["LogStreamName was not set so using " ++ config.LogStreamName ++ " \n"])
  let config := streamStep.1
  let calls := streamStep.2.1
  let out := out ++ streamStep.2.2
  let config := { config with StateFilename := fConfig.StateFilename }
  let config := { config with JournalDir := fConfig.JournalDir }
  -- if fConfig.BufferSize != 0
  let config :=
    if fConfig.BufferSize ≠ 0 then { config with BufferSize := fConfig.BufferSize }
    else { config with BufferSize := 100 }
  let config :=
    { config with AWSCredentials := some [Provider.EnvProvider, Provider.EC2RoleProvider] }
  ⟨(some config, none), calls, out⟩

/-! ## The steps of `LoadConfig`

The blocks of `LoadConfig`, one definition each, and `LoadConfig.staged`, which runs them in
sequence.  `LoadConfig_eq_staged` below shows that `LoadConfig.staged` is `LoadConfig`; the
proofs about `LoadConfig` go through the steps. -/

/-- The block `if fConfig.LogGroupName == "" ... else ...` of `LoadConfig`. -/
def LoadConfig.groupStep (env : Env) (calls : List Call) (config : Config)
    (fConfig : fileConfig) : Config × List Call × List String :=
  if fConfig.LogGroupName = "" then
    match env.getMetadata calls "security-groups" with
    | .error _ =>
      let config := { config with LogGroupName := "log_group" }
      (config, calls ++ [Call.getMetadata "security-groups"],
        ["Log group name was not set and can't get from AWS EC2 Meta, using default "
          ++ config.LogGroupName ++ " \n"])
    | .ok group =>
      let config := { config with LogGroupName := group }
      (config, calls ++ [Call.getMetadata "security-groups"],
        ["Log group name set to security group name " ++ config.LogGroupName ++ " \n"])
  else ({ config with LogGroupName := fConfig.LogGroupName }, calls, [])

/-- The block `if fConfig.AWSRegion != "" ... else ...` of `LoadConfig`. -/
def LoadConfig.regionStep (env : Env) (calls : List Call) (config : Config)
    (fConfig : fileConfig) : Except GoError Config × List Call :=
  if fConfig.AWSRegion ≠ "" then (.ok { config with AWSRegion := fConfig.AWSRegion }, calls)
  else
    match env.region calls with
    | .error err => (.error ("unable to detect AWS region: " ++ err), calls ++ [Call.region])
    | .ok region => (.ok { config with AWSRegion := region }, calls ++ [Call.region])

/-- The block `if fConfig.EC2InstanceId != "" ... else ...` of `LoadConfig`. -/
def LoadConfig.idStep (env : Env) (calls : List Call) (config : Config)
    (fConfig : fileConfig) : Except GoError Config × List Call :=
  if fConfig.EC2InstanceId ≠ "" then
    (.ok { config with EC2InstanceId := fConfig.EC2InstanceId }, calls)
  else
    match env.getMetadata calls "instance-id" with
    | .error err =>
      (.error ("unable to detect EC2 instance id: " ++ err),
        calls ++ [Call.getMetadata "instance-id"])
    | .ok instanceId =>
      (.ok { config with EC2InstanceId := instanceId },
        calls ++ [Call.getMetadata "instance-id"])

/-- The block `if fConfig.LogPriority == "" ... else ...` of `LoadConfig`. -/
def LoadConfig.priorityStep (env : Env) (config : Config) (fConfig : fileConfig) :
    Except GoError Config :=
  if fConfig.LogPriority = "" then .ok { config with LogPriority := DEBUG }
  else
    let level := getLogLevel env.rangeOrder fConfig.LogPriority
    match level.2 with
    | some _ =>
      .error ("The provided log filtering '" ++ fConfig.LogPriority
        ++ "' is unsupported by systemd!")
    | none => .ok { config with LogPriority := level.1 }

/-- The block `if fConfig.LogStreamName != "" ... else ...` of `LoadConfig`. -/
def LoadConfig.streamStep (env : Env) (calls : List Call) (config : Config)
    (fConfig : fileConfig) : Config × List Call × List String :=
  if fConfig.LogStreamName ≠ "" then
    ({ config with LogStreamName := fConfig.LogStreamName }, calls, [])
  else
    let r1 := FindInstanceId env calls
    let instanceId := r1.ret.1
    let r2 := FindAZ env r1.calls
    let az := r2.ret.1
    let r3 := FindInstanceName env r2.calls instanceId config.AWSRegion
    let name := r3.ret.1
    let config := { config with LogStreamName := name ++ "-" ++ instanceId ++ "-" ++ az }
    (config, r3.calls,
      r1.out ++ r2.out ++ r3.out
        ++ ["LogStreamName was not set so using " ++ config.LogStreamName ++ " \n"])

/-- The last assignments of `LoadConfig`: state file, journal directory, buffer size and
credentials. -/
def LoadConfig.lastStep (config : Config) (fConfig : fileConfig) : Config :=
  let config := { config with StateFilename := fConfig.StateFilename }
  let config := { config with JournalDir := fConfig.JournalDir }
  let config :=
    if fConfig.BufferSize ≠ 0 then { config with BufferSize := fConfig.BufferSize }
    else { config with BufferSize := 100 }
  { config with AWSCredentials := some [Provider.EnvProvider, Provider.EC2RoleProvider] }

/-- The function `LoadConfig` as the sequence of its steps. -/
def LoadConfig.staged (env : Env) (calls : List Call) (filename : String) :
    Run (Option Config × Option GoError) :=
  let read := env.readFile calls filename
  let calls := calls ++ [Call.readFile filename]
  match read with
  | .error err => ⟨(none, some err), calls, []⟩
  | .ok configBytes =>
  match env.hclDecode configBytes with
  | .error err => ⟨(none, some err), calls, []⟩
  | .ok fConfig =>
  let g := LoadConfig.groupStep env calls Config.zero fConfig
  if fConfig.StateFilename = "" then ⟨(none, some "state_file is required"), g.2.1, g.2.2⟩ else
  match LoadConfig.regionStep env g.2.1 g.1 fConfig with
  | (.error err, calls) => ⟨(none, some err), calls, g.2.2⟩
  | (.ok config, calls) =>
  match LoadConfig.idStep env calls config fConfig with
  | (.error err, calls) => ⟨(none, some err), calls, g.2.2⟩
  | (.ok config, calls) =>
  match LoadConfig.priorityStep env config fConfig with
  | .error err => ⟨(none, some err), calls, g.2.2⟩
  | .ok config =>
  let s := LoadConfig.streamStep env calls config fConfig
  ⟨(some (LoadConfig.lastStep s.1 fConfig), none), s.2.1, g.2.2 ++ s.2.2⟩

/-! ## Observers used to state the properties of `LoadConfig` -/

/-- The call history once the log-group step of `LoadConfig` is over: the file has been
read, and the metadata service was asked for "security-groups" when `log_group` is empty. -/
def callsAfterGroup (calls : List Call) (filename : String) (fc : fileConfig) : List Call :=
  calls ++ [Call.readFile filename]
    ++ (if fc.LogGroupName = "" then [Call.getMetadata "security-groups"] else [])

/-- The call history once the region step of `LoadConfig` is over. -/
def callsAfterRegion (calls : List Call) (filename : String) (fc : fileConfig) : List Call :=
  callsAfterGroup calls filename fc ++ (if fc.AWSRegion = "" then [Call.region] else [])

/-- The call history once the instance-id step of `LoadConfig` is over. -/
def callsAfterId (calls : List Call) (filename : String) (fc : fileConfig) : List Call :=
  callsAfterRegion calls filename fc
    ++ (if fc.EC2InstanceId = "" then [Call.getMetadata "instance-id"] else [])

/-! ## Concrete collaborators -/

/-- Collaborators whose answers do not depend on the call history: the file holds `text`,
which decodes to `fc`; `metadata`, `region` and `describe` are the answers of the metadata
service and of the EC2 service; the level table is visited in the order of the source. -/
def stubEnv (fc : fileConfig) (metadata : String → Except GoError String)
    (region : Except GoError String) (describe : Except GoError DescribeInstancesOutput) : Env :=
  { readFile := fun _ _ => .ok "text"
    hclDecode := fun _ => .ok fc
    getMetadata := fun _ path => metadata path
    region := fun _ => region
    describeInstances := fun _ _ _ => describe
    rangeOrder := logLevels
    rangeOrder_perm := List.Perm.refl _ }

/-- A metadata service that cannot be reached. -/
def metadataDown : String → Except GoError String := fun _ => .error "no route to host"

/-- Settings that declare every key. -/
def fcFull : fileConfig :=
  { AWSRegion := "eu-west-1", EC2InstanceId := "i-0abc", LogGroupName := "grp",
    LogStreamName := "stream", LogPriority := "warning", StateFilename := "/var/state",
    JournalDir := "/var/log/journal", BufferSize := 37 }

/-- The configuration resolved from `fcFull`. -/
def cfgFull : Config :=
  { AWSCredentials := some [Provider.EnvProvider, Provider.EC2RoleProvider],
    AWSRegion := "eu-west-1", EC2InstanceId := "i-0abc", LogGroupName := "grp",
    LogStreamName := "stream", LogPriority := WARNING, StateFilename := "/var/state",
    JournalDir := "/var/log/journal", BufferSize := 37 }

/-- Settings that declare nothing at all. -/
def fcEmpty : fileConfig :=
  { AWSRegion := "", EC2InstanceId := "", LogGroupName := "", LogStreamName := "",
    LogPriority := "", StateFilename := "", JournalDir := "", BufferSize := 0 }

/-- Settings that declare only the state file. -/
def fcStateOnly : fileConfig := { fcEmpty with StateFilename := "/var/state" }

/-- Settings for a machine outside the cloud: region, instance id and state file are
declared, the log stream name is to be derived. -/
def fcOffCloud : fileConfig :=
  { fcEmpty with AWSRegion := "us-west-2", EC2InstanceId := "i-abc",
                 StateFilename := "/var/state" }

/-- The configuration resolved from `fcOffCloud` when no collaborator can be reached. -/
def cfgOffCloud : Config :=
  { AWSCredentials := some [Provider.EnvProvider, Provider.EC2RoleProvider],
    AWSRegion := "us-west-2", EC2InstanceId := "i-abc", LogGroupName := "log_group",
    LogStreamName := "NO_NAME-i-01d5db425dc49f060-NO_AZ", LogPriority := DEBUG,
    StateFilename := "/var/state", JournalDir := "", BufferSize := 100 }

/-- A metadata service that answers every query, the region query included, with the
empty string. -/
def metadataBlank : String → Except GoError String := fun _ => .ok ""

/-- A describe-instances response with one instance that carries three tags. -/
def respTagged : DescribeInstancesOutput :=
  { Reservations :=
      [{ Instances :=
          [{ Tags := [⟨"Env", "prod"⟩, ⟨"Name", "web-1"⟩, ⟨"Name", "other"⟩] }] }] }

/-! ## The level table and `getLogLevel` -/

/-- When every visited entry that matches the token carries the same level, and such an
entry is visited, the loop returns that level. -/
theorem getLogLevel_of_unique (order : List (Priority × String × String)) (tok : String)
    (lvl : Priority)
    (hmem : ∃ e ∈ order, e.1 = lvl ∧ (e.2.1 = tok ∨ e.2.2 = tok))
    (huniq : ∀ e ∈ order, (e.2.1 = tok ∨ e.2.2 = tok) → e.1 = lvl) :
    getLogLevel order tok = (lvl, none) := by
  induction order with
  | nil => obtain ⟨e, he, _⟩ := hmem; cases he
  | cons hd tl ih =>
    obtain ⟨i, s⟩ := hd
    by_cases hs : s.1 = tok ∨ s.2 = tok
    · have hi : i = lvl := huniq (i, s) (List.mem_cons_self _ _) hs
      simp [getLogLevel, hs, hi]
    · have hrest : ∃ e ∈ tl, e.1 = lvl ∧ (e.2.1 = tok ∨ e.2.2 = tok) := by
        obtain ⟨e, he, h1, h2⟩ := hmem
        rcases List.mem_cons.mp he with rfl | he
        · exact absurd h2 hs
        · exact ⟨e, he, h1, h2⟩
      have := ih hrest (fun e he => huniq e (List.mem_cons_of_mem _ he))
      simp only [getLogLevel, hs, if_false]
      exact this

/-- When no visited entry matches the token, the loop falls through to the error. -/
theorem getLogLevel_of_no_match (order : List (Priority × String × String)) (tok : String)
    (hno : ∀ e ∈ order, ¬ (e.2.1 = tok ∨ e.2.2 = tok)) :
    getLogLevel order tok = (DEBUG, some ("'" ++ tok ++ "' is unsupported log priority")) := by
  induction order with
  | nil => rfl
  | cons hd tl ih =>
    obtain ⟨i, s⟩ := hd
    have hs : ¬ (s.1 = tok ∨ s.2 = tok) := hno (i, s) (List.mem_cons_self _ _)
    simp only [getLogLevel, hs, if_false]
    exact ih (fun e he => hno e (List.mem_cons_of_mem _ he))

/-- An alias of the table is resolved to its level under every visiting order. -/
theorem getLogLevel_perm_alias (order : List (Priority × String × String))
    (h : order.Perm logLevels) (lvl : Priority) (tok : String)
    (hmem : ∃ e ∈ logLevels, e.1 = lvl ∧ (e.2.1 = tok ∨ e.2.2 = tok))
    (huniq : ∀ e ∈ logLevels, (e.2.1 = tok ∨ e.2.2 = tok) → e.1 = lvl) :
    getLogLevel order tok = (lvl, none) := by
  apply getLogLevel_of_unique
  · obtain ⟨e, he, h1⟩ := hmem
    exact ⟨e, h.mem_iff.mpr he, h1⟩
  · exact fun e he => huniq e (h.mem_iff.mp he)

/-- A token outside the sixteen aliases matches no entry of the table. -/
theorem no_match_of_not_alias (tok : String) (h : tok ∉ aliases) :
    ∀ e ∈ logLevels, ¬ (e.2.1 = tok ∨ e.2.2 = tok) := by
  intro e he hm
  apply h
  simp only [logLevels, List.mem_cons, List.mem_singleton, List.not_mem_nil, or_false] at he
  rcases he with rfl | rfl | rfl | rfl | rfl | rfl | rfl | rfl <;>
    rcases hm with rfl | rfl <;> simp [aliases]

/-- A token outside the sixteen aliases is rejected under every visiting order. -/
theorem getLogLevel_perm_not_alias (order : List (Priority × String × String))
    (h : order.Perm logLevels) (tok : String) (htok : tok ∉ aliases) :
    getLogLevel order tok = (DEBUG, some ("'" ++ tok ++ "' is unsupported log priority")) :=
  getLogLevel_of_no_match order tok
    (fun e he => no_match_of_not_alias tok htok e (h.mem_iff.mp he))

/-- The result of `getLogLevel` is the same under every visiting order of the table. -/
theorem getLogLevel_perm_eq (order : List (Priority × String × String))
    (h : order.Perm logLevels) (tok : String) :
    getLogLevel order tok = getLogLevel logLevels tok := by
  by_cases htok : tok ∈ aliases
  · simp only [aliases, List.mem_cons, List.mem_singleton, List.not_mem_nil, or_false] at htok
    rcases htok with rfl | rfl | rfl | rfl | rfl | rfl | rfl | rfl |
        rfl | rfl | rfl | rfl | rfl | rfl | rfl | rfl
    all_goals
      first
      | exact (getLogLevel_perm_alias order h EMERGENCY _ (by decide) (by decide)).trans (by decide)
      | exact (getLogLevel_perm_alias order h ALERT _ (by decide) (by decide)).trans (by decide)
      | exact (getLogLevel_perm_alias order h CRITICAL _ (by decide) (by decide)).trans (by decide)
      | exact (getLogLevel_perm_alias order h ERROR _ (by decide) (by decide)).trans (by decide)
      | exact (getLogLevel_perm_alias order h WARNING _ (by decide) (by decide)).trans (by decide)
      | exact (getLogLevel_perm_alias order h NOTICE _ (by decide) (by decide)).trans (by decide)
      | exact (getLogLevel_perm_alias order h INFO _ (by decide) (by decide)).trans (by decide)
      | exact (getLogLevel_perm_alias order h DEBUG _ (by decide) (by decide)).trans (by decide)
  · rw [getLogLevel_perm_not_alias order h tok htok,
      getLogLevel_perm_not_alias logLevels (List.Perm.refl _) tok htok]

/-- Claim C1.  Under every order in which the level table is visited (every permutation of
its eight entries), `getLogLevel` returns, with a nil error, the level of each of the sixteen
aliases; for every other string, the empty string and "DEBUG" among them, it returns the
error "'<token>' is unsupported log priority", whose message contains the token; and its
result does not depend on the visiting order. -/
theorem getLogLevel_spec (order : List (Priority × String × String))
    (h : order.Perm logLevels) :
    (getLogLevel order "0" = (EMERGENCY, none) ∧ getLogLevel order "emerg" = (EMERGENCY, none)
      ∧ getLogLevel order "1" = (ALERT, none) ∧ getLogLevel order "alert" = (ALERT, none)
      ∧ getLogLevel order "2" = (CRITICAL, none) ∧ getLogLevel order "crit" = (CRITICAL, none)
      ∧ getLogLevel order "3" = (ERROR, none) ∧ getLogLevel order "err" = (ERROR, none)
      ∧ getLogLevel order "4" = (WARNING, none) ∧ getLogLevel order "warning" = (WARNING, none)
      ∧ getLogLevel order "5" = (NOTICE, none) ∧ getLogLevel order "notice" = (NOTICE, none)
      ∧ getLogLevel order "6" = (INFO, none) ∧ getLogLevel order "info" = (INFO, none)
      ∧ getLogLevel order "7" = (DEBUG, none) ∧ getLogLevel order "debug" = (DEBUG, none))
    ∧ (∀ tok : String,
        tok ∉ ["0", "emerg", "1", "alert", "2", "crit", "3", "err",
               "4", "warning", "5", "notice", "6", "info", "7", "debug"] →
        ∃ msg pre post, (getLogLevel order tok).2 = some msg ∧ msg = pre ++ tok ++ post
          ∧ msg = "'" ++ tok ++ "' is unsupported log priority")
    ∧ (getLogLevel order "").2 = some "'' is unsupported log priority"
    ∧ (getLogLevel order "DEBUG").2 = some "'DEBUG' is unsupported log priority"
    ∧ (∀ (order2 : List (Priority × String × String)), order2.Perm logLevels →
        ∀ tok : String, getLogLevel order tok = getLogLevel order2 tok) := by
  refine ⟨?_, ?_, ?_, ?_, ?_⟩
  · simp only [getLogLevel_perm_eq order h]
    decide
  · intro tok htok
    refine ⟨_, "'", "' is unsupported log priority", ?_, rfl, rfl⟩
    rw [getLogLevel_perm_not_alias order h tok htok]
  · rw [getLogLevel_perm_eq order h]; decide
  · rw [getLogLevel_perm_eq order h]; decide
  · intro order2 h2 tok
    rw [getLogLevel_perm_eq order h, getLogLevel_perm_eq order2 h2]

/-- The statement of C1 at the visiting order that is the reverse of the source order. -/
theorem getLogLevel_spec_witness :
    logLevels.reverse.Perm logLevels
    ∧ getLogLevel logLevels.reverse "err" = (ERROR, none)
    ∧ (getLogLevel logLevels.reverse "DEBUG").2 = some "'DEBUG' is unsupported log priority" :=
  ⟨List.reverse_perm _,
    (getLogLevel_spec logLevels.reverse (List.reverse_perm _)).1.2.2.2.2.2.2.2.1,
    (getLogLevel_spec logLevels.reverse (List.reverse_perm _)).2.2.2.1⟩

/-! ## `LoadConfig` -/

/-- The staged presentation is the function `LoadConfig` itself. -/
theorem LoadConfig_eq_staged (env : Env) (calls : List Call) (filename : String) :
    LoadConfig env calls filename = LoadConfig.staged env calls filename := rfl

/-- The log-group step asks for "security-groups" exactly when `log_group` is empty. -/
theorem groupStep_calls (env : Env) (calls : List Call) (config : Config) (fc : fileConfig) :
    (LoadConfig.groupStep env calls config fc).2.1 =
      calls ++ (if fc.LogGroupName = "" then [Call.getMetadata "security-groups"] else []) := by
  unfold LoadConfig.groupStep
  by_cases hg : fc.LogGroupName = ""
  · cases hsg : env.getMetadata calls "security-groups" <;> simp [hg]
  · simp [hg]

/-- The log-group step only assigns `LogGroupName`: the declared name, or the answer of the
metadata service, or "log_group" when the query fails. -/
theorem groupStep_config (env : Env) (calls : List Call) (config : Config) (fc : fileConfig) :
    (LoadConfig.groupStep env calls config fc).1 =
      { config with
        LogGroupName :=
          if fc.LogGroupName = "" then
            match env.getMetadata calls "security-groups" with
            | .ok group => group
            | .error _ => "log_group"
          else fc.LogGroupName } := by
  unfold LoadConfig.groupStep
  by_cases hg : fc.LogGroupName = ""
  · cases hsg : env.getMetadata calls "security-groups" <;> simp [hg]
  · simp [hg]

/-- The two outcomes of the region step. -/
theorem regionStep_cases (env : Env) (calls : List Call) (config : Config) (fc : fileConfig) :
    (fc.AWSRegion = "" ∧ ∃ e, env.region calls = .error e
        ∧ LoadConfig.regionStep env calls config fc =
            (.error ("unable to detect AWS region: " ++ e), calls ++ [Call.region]))
    ∨ (∃ region, (if fc.AWSRegion = "" then env.region calls = .ok region
          else region = fc.AWSRegion)
        ∧ LoadConfig.regionStep env calls config fc =
            (.ok { config with AWSRegion := region },
              calls ++ (if fc.AWSRegion = "" then [Call.region] else []))) := by
  unfold LoadConfig.regionStep
  by_cases hr : fc.AWSRegion = ""
  · cases hq : env.region calls with
    | error e => exact Or.inl ⟨hr, e, rfl, by simp [hr, hq]⟩
    | ok region => exact Or.inr ⟨region, by simp [hr], by simp [hr, hq]⟩
  · exact Or.inr ⟨fc.AWSRegion, by simp [hr], by simp [hr]⟩

/-- The two outcomes of the instance-id step. -/
theorem idStep_cases (env : Env) (calls : List Call) (config : Config) (fc : fileConfig) :
    (fc.EC2InstanceId = "" ∧ ∃ e, env.getMetadata calls "instance-id" = .error e
        ∧ LoadConfig.idStep env calls config fc =
            (.error ("unable to detect EC2 instance id: " ++ e),
              calls ++ [Call.getMetadata "instance-id"]))
    ∨ (∃ iid, (if fc.EC2InstanceId = "" then env.getMetadata calls "instance-id" = .ok iid
          else iid = fc.EC2InstanceId)
        ∧ LoadConfig.idStep env calls config fc =
            (.ok { config with EC2InstanceId := iid },
              calls ++ (if fc.EC2InstanceId = "" then [Call.getMetadata "instance-id"]
                else []))) := by
  unfold LoadConfig.idStep
  by_cases hi : fc.EC2InstanceId = ""
  · cases hq : env.getMetadata calls "instance-id" with
    | error e => exact Or.inl ⟨hi, e, rfl, by simp [hi, hq]⟩
    | ok iid => exact Or.inr ⟨iid, by simp [hi], by simp [hi, hq]⟩
  · exact Or.inr ⟨fc.EC2InstanceId, by simp [hi], by simp [hi]⟩

/-- The two outcomes of the priority step. -/
theorem priorityStep_cases (env : Env) (config : Config) (fc : fileConfig) :
    (fc.LogPriority ≠ "" ∧ (getLogLevel env.rangeOrder fc.LogPriority).2 ≠ none
        ∧ LoadConfig.priorityStep env config fc =
            .error ("The provided log filtering '" ++ fc.LogPriority
              ++ "' is unsupported by systemd!"))
    ∨ (∃ lvl, (if fc.LogPriority = "" then lvl = DEBUG
          else getLogLevel env.rangeOrder fc.LogPriority = (lvl, none))
        ∧ LoadConfig.priorityStep env config fc = .ok { config with LogPriority := lvl }) := by
  unfold LoadConfig.priorityStep
  by_cases hp : fc.LogPriority = ""
  · exact Or.inr ⟨DEBUG, by simp [hp], by simp [hp]⟩
  · rcases hq : getLogLevel env.rangeOrder fc.LogPriority with ⟨lvl, _ | e⟩
    · exact Or.inr ⟨lvl, by simp [hp], by simp [hp, hq]⟩
    · exact Or.inl ⟨hp, by simp, by simp [hp, hq]⟩

/-- The log-stream step only assigns `LogStreamName`: the declared name, or
name-id-zone from `FindInstanceName`, `FindInstanceId` and `FindAZ`. -/
theorem streamStep_config (env : Env) (calls : List Call) (config : Config) (fc : fileConfig) :
    (LoadConfig.streamStep env calls config fc).1 =
      { config with
        LogStreamName :=
          if fc.LogStreamName = "" then
            (FindInstanceName env (FindAZ env (FindInstanceId env calls).calls).calls
                (FindInstanceId env calls).ret.1 config.AWSRegion).ret.1
              ++ "-" ++ (FindInstanceId env calls).ret.1
              ++ "-" ++ (FindAZ env (FindInstanceId env calls).calls).ret.1
          else fc.LogStreamName } := by
  unfold LoadConfig.streamStep
  by_cases hs : fc.LogStreamName = "" <;> simp [hs]

/-- The calls of the log-stream step: none when `log_stream` is declared, otherwise those
of `FindInstanceId`, `FindAZ` and `FindInstanceName`, in this order. -/
theorem streamStep_calls (env : Env) (calls : List Call) (config : Config) (fc : fileConfig) :
    (LoadConfig.streamStep env calls config fc).2.1 =
      if fc.LogStreamName = "" then
        (FindInstanceName env (FindAZ env (FindInstanceId env calls).calls).calls
          (FindInstanceId env calls).ret.1 config.AWSRegion).calls
      else calls := by
  unfold LoadConfig.streamStep
  by_cases hs : fc.LogStreamName = "" <;> simp [hs]

/-- The five ways in which `LoadConfig` ends once the file is read and decoded: the four
fatal errors, in the order in which they are checked, and success. -/
theorem LoadConfig_cases (env : Env) (calls : List Call) (filename bytes : String)
    (fc : fileConfig)
    (hread : env.readFile calls filename = .ok bytes) (hdec : env.hclDecode bytes = .ok fc) :
    (fc.StateFilename = ""
      ∧ (LoadConfig env calls filename).ret = (none, some "state_file is required")
      ∧ (LoadConfig env calls filename).calls = callsAfterGroup calls filename fc)
    ∨ (fc.StateFilename ≠ "" ∧ fc.AWSRegion = ""
      ∧ ∃ e, env.region (callsAfterGroup calls filename fc) = .error e
        ∧ (LoadConfig env calls filename).ret =
            (none, some ("unable to detect AWS region: " ++ e))
        ∧ (LoadConfig env calls filename).calls =
            callsAfterGroup calls filename fc ++ [Call.region])
    ∨ (fc.StateFilename ≠ "" ∧ fc.EC2InstanceId = ""
      ∧ ∃ region e,
        (if fc.AWSRegion = "" then env.region (callsAfterGroup calls filename fc) = .ok region
          else region = fc.AWSRegion)
        ∧ env.getMetadata (callsAfterRegion calls filename fc) "instance-id" = .error e
        ∧ (LoadConfig env calls filename).ret =
            (none, some ("unable to detect EC2 instance id: " ++ e))
        ∧ (LoadConfig env calls filename).calls =
            callsAfterRegion calls filename fc ++ [Call.getMetadata "instance-id"])
    ∨ (fc.StateFilename ≠ "" ∧ fc.LogPriority ≠ ""
      ∧ (getLogLevel env.rangeOrder fc.LogPriority).2 ≠ none
      ∧ ∃ region iid,
        (if fc.AWSRegion = "" then env.region (callsAfterGroup calls filename fc) = .ok region
          else region = fc.AWSRegion)
        ∧ (if fc.EC2InstanceId = ""
            then env.getMetadata (callsAfterRegion calls filename fc) "instance-id" = .ok iid
            else iid = fc.EC2InstanceId)
        ∧ (LoadConfig env calls filename).ret =
            (none, some ("The provided log filtering '" ++ fc.LogPriority
              ++ "' is unsupported by systemd!"))
        ∧ (LoadConfig env calls filename).calls = callsAfterId calls filename fc)
    ∨ (fc.StateFilename ≠ ""
      ∧ ∃ region iid lvl,
        (if fc.AWSRegion = "" then env.region (callsAfterGroup calls filename fc) = .ok region
          else region = fc.AWSRegion)
        ∧ (if fc.EC2InstanceId = ""
            then env.getMetadata (callsAfterRegion calls filename fc) "instance-id" = .ok iid
            else iid = fc.EC2InstanceId)
        ∧ (if fc.LogPriority = "" then lvl = DEBUG
            else getLogLevel env.rangeOrder fc.LogPriority = (lvl, none))
        ∧ (LoadConfig env calls filename).ret =
          (some
            { AWSCredentials := some [Provider.EnvProvider, Provider.EC2RoleProvider]
              AWSRegion := region
              EC2InstanceId := iid
              LogGroupName :=
                if fc.LogGroupName = "" then
                  match env.getMetadata (calls ++ [Call.readFile filename]) "security-groups" with
                  | .ok group => group
                  | .error _ => "log_group"
                else fc.LogGroupName
              LogStreamName :=
                if fc.LogStreamName = "" then
                  (FindInstanceName env
                      (FindAZ env (FindInstanceId env (callsAfterId calls filename fc)).calls).calls
                      (FindInstanceId env (callsAfterId calls filename fc)).ret.1 region).ret.1
                    ++ "-" ++ (FindInstanceId env (callsAfterId calls filename fc)).ret.1
                    ++ "-"
                    ++ (FindAZ env (FindInstanceId env (callsAfterId calls filename fc)).calls).ret.1
                else fc.LogStreamName
              LogPriority := lvl
              StateFilename := fc.StateFilename
              JournalDir := fc.JournalDir
              BufferSize := if fc.BufferSize = 0 then 100 else fc.BufferSize }, none)
        ∧ (LoadConfig env calls filename).calls =
            if fc.LogStreamName = "" then
              (FindInstanceName env
                (FindAZ env (FindInstanceId env (callsAfterId calls filename fc)).calls).calls
                (FindInstanceId env (callsAfterId calls filename fc)).ret.1 region).calls
            else callsAfterId calls filename fc) := by
  rw [LoadConfig_eq_staged]
  unfold LoadConfig.staged
  simp only [hread, hdec]
  have hc1 : (LoadConfig.groupStep env (calls ++ [Call.readFile filename]) Config.zero fc).2.1
      = callsAfterGroup calls filename fc := by
    rw [groupStep_calls]; rfl
  by_cases hstate : fc.StateFilename = ""
  · left
    simp only [hstate, if_true, hc1, and_self]
  right
  simp only [hstate, if_false, hc1, ne_eq, not_false_eq_true, true_and]
  rcases regionStep_cases env (callsAfterGroup calls filename fc)
      (LoadConfig.groupStep env (calls ++ [Call.readFile filename]) Config.zero fc).1 fc
    with ⟨hr, e, he, hstep⟩ | ⟨region, hregion, hstep⟩
  · left
    simp only [hstep]
    exact ⟨hr, e, he, by simp⟩
  right
  simp only [hstep]
  have hc2 : callsAfterGroup calls filename fc ++ (if fc.AWSRegion = "" then [Call.region] else [])
      = callsAfterRegion calls filename fc := rfl
  rw [hc2]
  rcases idStep_cases env (callsAfterRegion calls filename fc)
      { (LoadConfig.groupStep env (calls ++ [Call.readFile filename]) Config.zero fc).1 with
        AWSRegion := region } fc
    with ⟨hi, e, he, hstep2⟩ | ⟨iid, hid, hstep2⟩
  · left
    simp only [hstep2]
    exact ⟨hi, region, e, hregion, he, by simp⟩
  right
  simp only [hstep2]
  have hc3 : callsAfterRegion calls filename fc
      ++ (if fc.EC2InstanceId = "" then [Call.getMetadata "instance-id"] else [])
      = callsAfterId calls filename fc := rfl
  rw [hc3]
  rcases priorityStep_cases env
      { (LoadConfig.groupStep env (calls ++ [Call.readFile filename]) Config.zero fc).1 with
        AWSRegion := region, EC2InstanceId := iid } fc
    with ⟨hp, hlvl, hstep3⟩ | ⟨lvl, hprio, hstep3⟩
  · left
    simp only [hstep3]
    exact ⟨hp, hlvl, region, iid, hregion, hid, by simp⟩
  right
  simp only [hstep3]
  refine ⟨region, iid, lvl, hregion, hid, hprio, ?_, ?_⟩
  · rw [streamStep_config, groupStep_config]
    by_cases hb : fc.BufferSize = 0 <;> simp [LoadConfig.lastStep, Config.zero, hb]
  · rw [streamStep_calls]

/-- Every alias is a non-empty token that the table, in source order, maps to the level of
the entry it belongs to. -/
theorem alias_level (tok : String) (h : tok ∈ aliases) :
    tok ≠ "" ∧ ∃ lvl a b, (lvl, a, b) ∈ logLevels ∧ (a = tok ∨ b = tok)
      ∧ getLogLevel logLevels tok = (lvl, none) := by
  simp only [aliases, List.mem_cons, List.mem_singleton, List.not_mem_nil, or_false] at h
  rcases h with rfl | rfl | rfl | rfl | rfl | rfl | rfl | rfl |
      rfl | rfl | rfl | rfl | rfl | rfl | rfl | rfl
  all_goals
    refine ⟨by decide, ?_⟩
    first
    | exact ⟨EMERGENCY, "0", "emerg", by decide, by decide, by decide⟩
    | exact ⟨ALERT, "1", "alert", by decide, by decide, by decide⟩
    | exact ⟨CRITICAL, "2", "crit", by decide, by decide, by decide⟩
    | exact ⟨ERROR, "3", "err", by decide, by decide, by decide⟩
    | exact ⟨WARNING, "4", "warning", by decide, by decide, by decide⟩
    | exact ⟨NOTICE, "5", "notice", by decide, by decide, by decide⟩
    | exact ⟨INFO, "6", "info", by decide, by decide, by decide⟩
    | exact ⟨DEBUG, "7", "debug", by decide, by decide, by decide⟩

/-! ## The claims about `LoadConfig` -/

/-- Claim C2.  When the decoded settings have an empty `state_file`, `LoadConfig` returns no
configuration and the error "state_file is required", whatever the other fields are and
however the metadata and EC2 collaborators behave. -/
theorem LoadConfig_empty_state_file (env : Env) (calls : List Call) (filename bytes : String)
    (fc : fileConfig)
    (hread : env.readFile calls filename = .ok bytes) (hdec : env.hclDecode bytes = .ok fc)
    (hstate : fc.StateFilename = "") :
    (LoadConfig env calls filename).ret = (none, some "state_file is required") := by
  rcases LoadConfig_cases env calls filename bytes fc hread hdec with
    ⟨_, h, _⟩ | ⟨hn, _⟩ | ⟨hn, _⟩ | ⟨hn, _⟩ | ⟨hn, _⟩
  · exact h
  all_goals exact absurd hstate hn

/-- Claim C2 at settings that declare everything but the state file, with a metadata
service that cannot be reached. -/
theorem LoadConfig_empty_state_file_witness :
    (LoadConfig (stubEnv { fcFull with StateFilename := "" } metadataDown (.error "down")
        (.error "down")) [] "conf.hcl").ret = (none, some "state_file is required") :=
  LoadConfig_empty_state_file _ [] "conf.hcl" "text" { fcFull with StateFilename := "" }
    rfl rfl rfl

/-- Claim C3.  When region, instance id, log group, log stream, log priority (one of the
sixteen aliases), state file and journal directory are all non-empty and the buffer size is
not zero, `LoadConfig` succeeds, its only collaborator call is the reading of the file (no
metadata query, no EC2 lookup), and the configuration carries the declared values verbatim,
the level of the declared priority token, and the chain of credentials. -/
theorem LoadConfig_all_declared (env : Env) (calls : List Call) (filename bytes : String)
    (fc : fileConfig)
    (hread : env.readFile calls filename = .ok bytes) (hdec : env.hclDecode bytes = .ok fc)
    (hregion : fc.AWSRegion ≠ "") (hid : fc.EC2InstanceId ≠ "") (hgroup : fc.LogGroupName ≠ "")
    (hstream : fc.LogStreamName ≠ "")
    (hprio : fc.LogPriority ∈ ["0", "emerg", "1", "alert", "2", "crit", "3", "err",
      "4", "warning", "5", "notice", "6", "info", "7", "debug"])
    (hstate : fc.StateFilename ≠ "") (_hjournal : fc.JournalDir ≠ "")
    (hbuf : fc.BufferSize ≠ 0) :
    ∃ cfg, (LoadConfig env calls filename).ret = (some cfg, none)
      ∧ (LoadConfig env calls filename).calls = calls ++ [Call.readFile filename]
      ∧ cfg.AWSRegion = fc.AWSRegion ∧ cfg.EC2InstanceId = fc.EC2InstanceId
      ∧ cfg.LogGroupName = fc.LogGroupName ∧ cfg.LogStreamName = fc.LogStreamName
      ∧ cfg.StateFilename = fc.StateFilename ∧ cfg.JournalDir = fc.JournalDir
      ∧ cfg.BufferSize = fc.BufferSize
      ∧ (∃ a b, (cfg.LogPriority, a, b) ∈ logLevels
          ∧ (a = fc.LogPriority ∨ b = fc.LogPriority))
      ∧ cfg.AWSCredentials = some [Provider.EnvProvider, Provider.EC2RoleProvider] := by
  obtain ⟨hne, lvl, a, b, hmem, hab, hlvl⟩ := alias_level fc.LogPriority hprio
  have hlvl2 : getLogLevel env.rangeOrder fc.LogPriority = (lvl, none) := by
    rw [getLogLevel_perm_eq _ env.rangeOrder_perm]; exact hlvl
  rcases LoadConfig_cases env calls filename bytes fc hread hdec with
    ⟨hs, _⟩ | ⟨_, hr, _⟩ | ⟨_, hi, _⟩ | ⟨_, _, hp, _⟩
      | ⟨_, region, iid, lvl2, h1, h2, h3, hret, hcalls⟩
  · exact absurd hs hstate
  · exact absurd hr hregion
  · exact absurd hi hid
  · rw [hlvl2] at hp; exact absurd rfl hp
  · simp only [hregion, hid, hne, if_false] at h1 h2 h3
    rw [hlvl2] at h3
    have h3b : lvl = lvl2 := (Prod.mk.inj h3).1
    subst h1 h2 h3b
    refine ⟨_, hret, ?_, ?_⟩
    · rw [hcalls]
      simp [hstream, callsAfterId, callsAfterRegion, callsAfterGroup, hregion, hid, hgroup]
    · simp only [hgroup, hstream, hbuf, if_false, true_and, and_true]
      exact ⟨a, b, hmem, hab⟩

/-- Claim C3 at `fcFull`, with collaborators that would all fail if they were called. -/
theorem LoadConfig_all_declared_witness :
    ∃ cfg, (LoadConfig (stubEnv fcFull metadataDown (.error "down") (.error "down"))
        [] "conf.hcl").ret = (some cfg, none)
      ∧ (LoadConfig (stubEnv fcFull metadataDown (.error "down") (.error "down"))
        [] "conf.hcl").calls = [] ++ [Call.readFile "conf.hcl"]
      ∧ cfg.AWSRegion = fcFull.AWSRegion ∧ cfg.EC2InstanceId = fcFull.EC2InstanceId
      ∧ cfg.LogGroupName = fcFull.LogGroupName ∧ cfg.LogStreamName = fcFull.LogStreamName
      ∧ cfg.StateFilename = fcFull.StateFilename ∧ cfg.JournalDir = fcFull.JournalDir
      ∧ cfg.BufferSize = fcFull.BufferSize
      ∧ (∃ a b, (cfg.LogPriority, a, b) ∈ logLevels
          ∧ (a = fcFull.LogPriority ∨ b = fcFull.LogPriority))
      ∧ cfg.AWSCredentials = some [Provider.EnvProvider, Provider.EC2RoleProvider] :=
  LoadConfig_all_declared (stubEnv fcFull metadataDown (.error "down") (.error "down"))
    [] "conf.hcl" "text" fcFull rfl rfl (by decide) (by decide) (by decide) (by decide)
    (by decide) (by decide) (by decide) (by decide)

/-- Claim C4.  When the state file is declared, the region is not, and the region query of
the metadata service fails with error `e`, `LoadConfig` returns no configuration and the
error "unable to detect AWS region: e"; the failed region query is its last collaborator
call: the calls it issued are the reading of the file, the "security-groups" query when
`log_group` is empty, and the region query, so that no instance-id query, no
availability-zone query and no instance-name lookup is made. -/
theorem LoadConfig_region_undetectable (env : Env) (calls : List Call)
    (filename bytes : String) (fc : fileConfig)
    (hread : env.readFile calls filename = .ok bytes) (hdec : env.hclDecode bytes = .ok fc)
    (hstate : fc.StateFilename ≠ "") (hregion : fc.AWSRegion = "") (e : GoError)
    (hfail : env.region (callsAfterGroup calls filename fc) = .error e) :
    (LoadConfig env calls filename).ret = (none, some ("unable to detect AWS region: " ++ e))
    ∧ ∃ issued, (LoadConfig env calls filename).calls = calls ++ issued
      ∧ issued = [Call.readFile filename]
          ++ (if fc.LogGroupName = "" then [Call.getMetadata "security-groups"] else [])
          ++ [Call.region]
      ∧ Call.getMetadata "instance-id" ∉ issued
      ∧ Call.getMetadata "placement/availability-zone" ∉ issued
      ∧ ∀ instanceId region, Call.describeInstances instanceId region ∉ issued := by
  rcases LoadConfig_cases env calls filename bytes fc hread hdec with
    ⟨hs, _⟩ | ⟨_, _, e2, he2, hret, hcalls⟩ | ⟨_, _, region, _, h1, _⟩
      | ⟨_, _, _, region, _, h1, _⟩ | ⟨_, region, _, _, h1, _⟩
  · exact absurd hs hstate
  · rw [hfail] at he2
    cases he2
    refine ⟨hret, _, ?_, rfl, ?_, ?_, ?_⟩
    · rw [hcalls]; simp [callsAfterGroup]
    all_goals by_cases hg : fc.LogGroupName = "" <;> simp [hg]
  all_goals
    simp only [hregion, if_true] at h1
    rw [hfail] at h1
    cases h1

/-- Claim C4 at settings that declare only the state file, with a metadata service that
cannot be reached. -/
theorem LoadConfig_region_undetectable_witness :
    (LoadConfig (stubEnv fcStateOnly metadataDown (.error "timeout") (.error "down"))
        [] "conf.hcl").ret = (none, some ("unable to detect AWS region: " ++ "timeout"))
    ∧ ∃ issued, (LoadConfig (stubEnv fcStateOnly metadataDown (.error "timeout")
          (.error "down")) [] "conf.hcl").calls = [] ++ issued
      ∧ issued = [Call.readFile "conf.hcl"]
          ++ (if fcStateOnly.LogGroupName = "" then [Call.getMetadata "security-groups"] else [])
          ++ [Call.region]
      ∧ Call.getMetadata "instance-id" ∉ issued
      ∧ Call.getMetadata "placement/availability-zone" ∉ issued
      ∧ ∀ instanceId region, Call.describeInstances instanceId region ∉ issued :=
  LoadConfig_region_undetectable
    (stubEnv fcStateOnly metadataDown (.error "timeout") (.error "down"))
    [] "conf.hcl" "text" fcStateOnly rfl rfl (by decide) rfl "timeout" rfl

/-- Claim C5, as stated, fails.  With settings that declare nothing (empty `state_file`
and empty `log_group`), `LoadConfig` fails with "state_file is required" only after it has
asked the metadata service for "security-groups". -/
theorem LoadConfig_state_check_after_group_query :
    fcEmpty.StateFilename = "" ∧ fcEmpty.LogGroupName = ""
    ∧ (LoadConfig (stubEnv fcEmpty metadataDown (.error "down") (.error "down"))
        [] "conf.hcl").ret = (none, some "state_file is required")
    ∧ (LoadConfig (stubEnv fcEmpty metadataDown (.error "down") (.error "down"))
        [] "conf.hcl").calls = [Call.readFile "conf.hcl", Call.getMetadata "security-groups"]
    ∧ Call.getMetadata "security-groups" ∈
        (LoadConfig (stubEnv fcEmpty metadataDown (.error "down") (.error "down"))
          [] "conf.hcl").calls := by
  decide

/-- Claim C5, amended.  When the decoded settings have an empty `state_file`, `LoadConfig`
fails with "state_file is required" right after the log-group step and before any later
step: besides reading the file it has issued exactly one metadata query, "security-groups",
when `log_group` is empty, and no collaborator call at all when `log_group` is declared. -/
theorem LoadConfig_state_check_calls (env : Env) (calls : List Call) (filename bytes : String)
    (fc : fileConfig)
    (hread : env.readFile calls filename = .ok bytes) (hdec : env.hclDecode bytes = .ok fc)
    (hstate : fc.StateFilename = "") :
    (LoadConfig env calls filename).ret = (none, some "state_file is required")
    ∧ (LoadConfig env calls filename).calls =
        calls ++ [Call.readFile filename]
          ++ (if fc.LogGroupName = "" then [Call.getMetadata "security-groups"] else []) := by
  rcases LoadConfig_cases env calls filename bytes fc hread hdec with
    ⟨_, h, hc⟩ | ⟨hn, _⟩ | ⟨hn, _⟩ | ⟨hn, _⟩ | ⟨hn, _⟩
  · exact ⟨h, hc⟩
  all_goals exact absurd hstate hn

/-- Claim C5, amended, at settings that declare only the log group: no query is made. -/
theorem LoadConfig_state_check_calls_witness :
    (LoadConfig (stubEnv { fcEmpty with LogGroupName := "grp" } metadataDown (.error "down")
        (.error "down")) [] "conf.hcl").ret = (none, some "state_file is required")
    ∧ (LoadConfig (stubEnv { fcEmpty with LogGroupName := "grp" } metadataDown (.error "down")
        (.error "down")) [] "conf.hcl").calls =
        [] ++ [Call.readFile "conf.hcl"]
          ++ (if ({ fcEmpty with LogGroupName := "grp" } : fileConfig).LogGroupName = ""
              then [Call.getMetadata "security-groups"] else []) :=
  LoadConfig_state_check_calls _ [] "conf.hcl" "text" { fcEmpty with LogGroupName := "grp" }
    rfl rfl rfl

/-- Claim C6.  On every successful `LoadConfig`, the resolved `BufferSize` is 100 when the
declared `buffer_size` is 0, and is the declared value, unchanged, for every other integer,
positive or negative. -/
theorem LoadConfig_buffer_size (env : Env) (calls : List Call) (filename bytes : String)
    (fc : fileConfig) (cfg : Config)
    (hread : env.readFile calls filename = .ok bytes) (hdec : env.hclDecode bytes = .ok fc)
    (hok : (LoadConfig env calls filename).ret.1 = some cfg) :
    (fc.BufferSize = 0 → cfg.BufferSize = 100)
    ∧ (fc.BufferSize ≠ 0 → cfg.BufferSize = fc.BufferSize) := by
  rcases LoadConfig_cases env calls filename bytes fc hread hdec with
    ⟨_, h, _⟩ | ⟨_, _, _, _, h, _⟩ | ⟨_, _, _, _, _, _, h, _⟩
      | ⟨_, _, _, _, _, _, _, h, _⟩ | ⟨_, _, _, _, _, _, _, h, _⟩
  case inr.inr.inr.inr =>
    rw [h] at hok
    cases hok
    constructor
    · intro hb; simp [hb]
    · intro hb; simp [hb]
  all_goals
    rw [h] at hok
    cases hok

/-- Claim C6 at declared buffer sizes 37, -5 and 0. -/
theorem LoadConfig_buffer_size_witness :
    ((LoadConfig (stubEnv fcFull metadataDown (.error "down") (.error "down"))
          [] "conf.hcl").ret.1 = some cfgFull
      ∧ (fcFull.BufferSize = 0 → cfgFull.BufferSize = 100)
      ∧ (fcFull.BufferSize ≠ 0 → cfgFull.BufferSize = fcFull.BufferSize)
      ∧ cfgFull.BufferSize = 37)
    ∧ ((LoadConfig (stubEnv { fcFull with BufferSize := -5 } metadataDown (.error "down")
          (.error "down")) [] "conf.hcl").ret.1 = some { cfgFull with BufferSize := -5 }
      ∧ (({ fcFull with BufferSize := -5 } : fileConfig).BufferSize ≠ 0 →
          ({ cfgFull with BufferSize := -5 } : Config).BufferSize = -5))
    ∧ ((LoadConfig (stubEnv { fcFull with BufferSize := 0 } metadataDown (.error "down")
          (.error "down")) [] "conf.hcl").ret.1 = some { cfgFull with BufferSize := 100 }
      ∧ (({ fcFull with BufferSize := 0 } : fileConfig).BufferSize = 0 →
          ({ cfgFull with BufferSize := 100 } : Config).BufferSize = 100)) :=
  ⟨⟨by decide,
      (LoadConfig_buffer_size (stubEnv fcFull metadataDown (.error "down") (.error "down"))
        [] "conf.hcl" "text" fcFull cfgFull rfl rfl (by decide)).1,
      (LoadConfig_buffer_size (stubEnv fcFull metadataDown (.error "down") (.error "down"))
        [] "conf.hcl" "text" fcFull cfgFull rfl rfl (by decide)).2, rfl⟩,
    ⟨by decide,
      (LoadConfig_buffer_size
        (stubEnv { fcFull with BufferSize := -5 } metadataDown (.error "down") (.error "down"))
        [] "conf.hcl" "text" { fcFull with BufferSize := -5 } { cfgFull with BufferSize := -5 }
        rfl rfl (by decide)).2⟩,
    ⟨by decide,
      (LoadConfig_buffer_size
        (stubEnv { fcFull with BufferSize := 0 } metadataDown (.error "down") (.error "down"))
        [] "conf.hcl" "text" { fcFull with BufferSize := 0 } { cfgFull with BufferSize := 100 }
        rfl rfl (by decide)).1⟩⟩

/-! ## `FindInstanceName` -/

/-- The tag loop returns nothing when no tag has key "Name". -/
theorem tagLoop_none (tags : List Tag) (h : ∀ t ∈ tags, t.Key ≠ "Name") :
    (FindInstanceName.tagLoop tags).1 = none := by
  induction tags with
  | nil => rfl
  | cons t rest ih =>
    have ht : t.Key ≠ "Name" := h t (List.mem_cons_self _ _)
    simp only [FindInstanceName.tagLoop, ht, if_false]
    exact ih (fun u hu => h u (List.mem_cons_of_mem _ hu))

/-- The tag loop returns the value of the first tag, in tag order, whose key is "Name". -/
theorem tagLoop_first (pre : List Tag) (t : Tag) (post : List Tag)
    (hpre : ∀ u ∈ pre, u.Key ≠ "Name") (ht : t.Key = "Name") :
    (FindInstanceName.tagLoop (pre ++ t :: post)).1 = some t.Value := by
  induction pre with
  | nil => simp [FindInstanceName.tagLoop, ht]
  | cons u rest ih =>
    have hu : u.Key ≠ "Name" := hpre u (List.mem_cons_self _ _)
    simp only [List.cons_append, FindInstanceName.tagLoop, hu, if_false]
    exact ih (fun v hv => hpre v (List.mem_cons_of_mem _ hv))

/-- A tag list either has no "Name" key or splits at its first "Name" key. -/
theorem tags_split (tags : List Tag) :
    (∀ t ∈ tags, t.Key ≠ "Name")
    ∨ ∃ pre t post, tags = pre ++ t :: post ∧ (∀ u ∈ pre, u.Key ≠ "Name") ∧ t.Key = "Name" := by
  induction tags with
  | nil => exact Or.inl (fun _ h => absurd h (List.not_mem_nil _))
  | cons t rest ih =>
    by_cases ht : t.Key = "Name"
    · exact Or.inr ⟨[], t, rest, rfl, fun _ h => absurd h (List.not_mem_nil _), ht⟩
    · rcases ih with hall | ⟨pre, u, post, hsplit, hpre, hu⟩
      · left
        intro v hv
        rcases List.mem_cons.mp hv with rfl | hv
        · exact ht
        · exact hall v hv
      · right
        refine ⟨t :: pre, u, post, by rw [hsplit]; rfl, ?_, hu⟩
        intro v hv
        rcases List.mem_cons.mp hv with rfl | hv
        · exact ht
        · exact hpre v hv

/-- The result of `FindInstanceName` when the lookup answers with an instance record. -/
theorem FindInstanceName_found (env : Env) (calls : List Call) (instanceId region : String)
    (resp : DescribeInstancesOutput) (r : Reservation) (rs : List Reservation)
    (inst : Instance) (insts : List Instance)
    (hresp : env.describeInstances calls instanceId region = .ok resp)
    (hres : resp.Reservations = r :: rs) (hinst : r.Instances = inst :: insts) :
    (FindInstanceName env calls instanceId region).ret =
      match (FindInstanceName.tagLoop inst.Tags).1 with
      | some value => (value, none)
      | none => ("NO_NAME", some "Could not find tag") := by
  unfold FindInstanceName
  simp only [hresp, hres, hinst]
  cases htags : inst.Tags with
  | nil => simp [FindInstanceName.tagLoop]
  | cons t rest =>
    simp only [List.length_cons, gt_iff_lt, Nat.zero_lt_succ, if_true]
    cases (FindInstanceName.tagLoop (t :: rest)).1 <;> rfl

/-- The only call of `FindInstanceName` is the describe-instances call for the given
instance id and region. -/
theorem FindInstanceName_calls (env : Env) (calls : List Call) (instanceId region : String) :
    (FindInstanceName env calls instanceId region).calls
      = calls ++ [Call.describeInstances instanceId region] := by
  unfold FindInstanceName
  simp only
  repeat' split
  all_goals rfl

/-- Whenever `FindInstanceName` returns an error, the string it returns is "NO_NAME". -/
theorem FindInstanceName_no_name (env : Env) (calls : List Call) (instanceId region : String)
    (h : (FindInstanceName env calls instanceId region).ret.2 ≠ none) :
    (FindInstanceName env calls instanceId region).ret.1 = "NO_NAME" := by
  cases hq : env.describeInstances calls instanceId region with
  | error err => simp [FindInstanceName, hq]
  | ok resp =>
    cases hres : resp.Reservations with
    | nil => simp [FindInstanceName, hq, hres]
    | cons r rs =>
      cases hinst : r.Instances with
      | nil => simp [FindInstanceName, hq, hres, hinst]
      | cons inst insts =>
        rw [FindInstanceName_found env calls instanceId region resp r rs inst insts hq hres hinst]
          at h ⊢
        cases hloop : (FindInstanceName.tagLoop inst.Tags).1 with
        | none => rfl
        | some value => rw [hloop] at h; exact absurd rfl h

/-- Claim C8.  `FindInstanceName` makes one describe-instances call, for the given instance
id and region, and for every outcome of that call: if the call fails with an error, it
returns "NO_NAME" and that error; if the response has no reservation, or its first
reservation has no instance, it returns "NO_NAME" and the error "Could not find
reservation"; if the instance (the first instance of the first reservation) has no tag with
key "Name", an empty tag list included, it returns "NO_NAME" and the error "Could not find
tag"; otherwise it returns the value of the first tag, in tag order, whose key is "Name",
and a nil error.  The returned error is non-nil exactly in the three failure cases, and
then the returned string is "NO_NAME". -/
theorem FindInstanceName_spec (env : Env) (calls : List Call) (instanceId region : String) :
    (FindInstanceName env calls instanceId region).calls
        = calls ++ [Call.describeInstances instanceId region]
    ∧ (∀ err, env.describeInstances calls instanceId region = .error err →
        (FindInstanceName env calls instanceId region).ret = ("NO_NAME", some err))
    ∧ (∀ resp, env.describeInstances calls instanceId region = .ok resp →
        (resp.Reservations = [] ∨ ∃ r rs, resp.Reservations = r :: rs ∧ r.Instances = []) →
        (FindInstanceName env calls instanceId region).ret
          = ("NO_NAME", some "Could not find reservation"))
    ∧ (∀ resp r rs inst insts, env.describeInstances calls instanceId region = .ok resp →
        resp.Reservations = r :: rs → r.Instances = inst :: insts →
        (∀ t ∈ inst.Tags, t.Key ≠ "Name") →
        (FindInstanceName env calls instanceId region).ret
          = ("NO_NAME", some "Could not find tag"))
    ∧ (∀ resp r rs inst insts pre t post,
        env.describeInstances calls instanceId region = .ok resp →
        resp.Reservations = r :: rs → r.Instances = inst :: insts →
        inst.Tags = pre ++ t :: post → (∀ u ∈ pre, u.Key ≠ "Name") → t.Key = "Name" →
        (FindInstanceName env calls instanceId region).ret = (t.Value, none))
    ∧ ((FindInstanceName env calls instanceId region).ret.2 ≠ none ↔
        ((∃ err, env.describeInstances calls instanceId region = .error err)
        ∨ (∃ resp, env.describeInstances calls instanceId region = .ok resp
            ∧ (resp.Reservations = []
              ∨ ∃ r rs, resp.Reservations = r :: rs ∧ r.Instances = []))
        ∨ (∃ resp r rs inst insts, env.describeInstances calls instanceId region = .ok resp
            ∧ resp.Reservations = r :: rs ∧ r.Instances = inst :: insts
            ∧ ∀ t ∈ inst.Tags, t.Key ≠ "Name")))
    ∧ ((FindInstanceName env calls instanceId region).ret.2 ≠ none →
        (FindInstanceName env calls instanceId region).ret.1 = "NO_NAME") := by
  have hA : ∀ err, env.describeInstances calls instanceId region = .error err →
      (FindInstanceName env calls instanceId region).ret = ("NO_NAME", some err) := by
    intro err herr
    simp [FindInstanceName, herr]
  have hB : ∀ resp, env.describeInstances calls instanceId region = .ok resp →
      (resp.Reservations = [] ∨ ∃ r rs, resp.Reservations = r :: rs ∧ r.Instances = []) →
      (FindInstanceName env calls instanceId region).ret
        = ("NO_NAME", some "Could not find reservation") := by
    intro resp hresp hnone
    rcases hnone with hres | ⟨r, rs, hres, hinst⟩
    · simp [FindInstanceName, hresp, hres]
    · simp [FindInstanceName, hresp, hres, hinst]
  have hC : ∀ resp r rs inst insts, env.describeInstances calls instanceId region = .ok resp →
      resp.Reservations = r :: rs → r.Instances = inst :: insts →
      (∀ t ∈ inst.Tags, t.Key ≠ "Name") →
      (FindInstanceName env calls instanceId region).ret
        = ("NO_NAME", some "Could not find tag") := by
    intro resp r rs inst insts hresp hres hinst hall
    rw [FindInstanceName_found env calls instanceId region resp r rs inst insts hresp hres hinst,
      tagLoop_none inst.Tags hall]
  have hD : ∀ resp r rs inst insts pre t post,
      env.describeInstances calls instanceId region = .ok resp →
      resp.Reservations = r :: rs → r.Instances = inst :: insts →
      inst.Tags = pre ++ t :: post → (∀ u ∈ pre, u.Key ≠ "Name") → t.Key = "Name" →
      (FindInstanceName env calls instanceId region).ret = (t.Value, none) := by
    intro resp r rs inst insts pre t post hresp hres hinst hsplit hpre ht
    rw [FindInstanceName_found env calls instanceId region resp r rs inst insts hresp hres hinst,
      hsplit, tagLoop_first pre t post hpre ht]
  have hF : (FindInstanceName env calls instanceId region).ret.2 ≠ none ↔
      ((∃ err, env.describeInstances calls instanceId region = .error err)
      ∨ (∃ resp, env.describeInstances calls instanceId region = .ok resp
          ∧ (resp.Reservations = []
            ∨ ∃ r rs, resp.Reservations = r :: rs ∧ r.Instances = []))
      ∨ (∃ resp r rs inst insts, env.describeInstances calls instanceId region = .ok resp
          ∧ resp.Reservations = r :: rs ∧ r.Instances = inst :: insts
          ∧ ∀ t ∈ inst.Tags, t.Key ≠ "Name")) := by
    constructor
    · intro hne
      cases hq : env.describeInstances calls instanceId region with
      | error err => exact Or.inl ⟨err, rfl⟩
      | ok resp =>
        right
        cases hres : resp.Reservations with
        | nil => exact Or.inl ⟨resp, rfl, Or.inl hres⟩
        | cons r rs =>
          cases hinst : r.Instances with
          | nil => exact Or.inl ⟨resp, rfl, Or.inr ⟨r, rs, hres, hinst⟩⟩
          | cons inst insts =>
            right
            refine ⟨resp, r, rs, inst, insts, rfl, hres, hinst, ?_⟩
            rcases tags_split inst.Tags with hall | ⟨pre, t, post, hsplit, hpre, ht⟩
            · exact hall
            · rw [hD resp r rs inst insts pre t post hq hres hinst hsplit hpre ht] at hne
              exact absurd rfl hne
    · rintro (⟨err, herr⟩ | ⟨resp, hresp, hnone⟩ | ⟨resp, r, rs, inst, insts, hresp, hres, hinst, hall⟩)
      · rw [hA err herr]; simp
      · rw [hB resp hresp hnone]; simp
      · rw [hC resp r rs inst insts hresp hres hinst hall]; simp
  refine ⟨?_, hA, hB, hC, hD, hF, ?_⟩
  · exact FindInstanceName_calls env calls instanceId region
  · intro hne
    rcases hF.mp hne with
      ⟨err, herr⟩ | ⟨resp, hresp, hnone⟩ | ⟨resp, r, rs, inst, insts, hresp, hres, hinst, hall⟩
    · rw [hA err herr]
    · rw [hB resp hresp hnone]
    · rw [hC resp r rs inst insts hresp hres hinst hall]

/-- Claim C8 at a response whose instance carries the tags Env, Name, Name: the value of
the first "Name" tag is returned. -/
theorem FindInstanceName_spec_witness :
    (FindInstanceName (stubEnv fcFull metadataDown (.error "down") (.ok respTagged))
      [] "i-0abc" "eu-west-1").ret = ("web-1", none) :=
  (FindInstanceName_spec (stubEnv fcFull metadataDown (.error "down") (.ok respTagged))
      [] "i-0abc" "eu-west-1").2.2.2.2.1
    respTagged _ [] _ [] [⟨"Env", "prod"⟩] ⟨"Name", "web-1"⟩ [⟨"Name", "other"⟩]
    rfl rfl rfl rfl (by decide) rfl

/-! ## `FindInstanceId` and `FindAZ` -/

/-- With `DEV_DEBUG` set, `FindInstanceId` never fails: it returns the answer of the
"instance-id" query, or the canned instance id when the query fails. -/
theorem FindInstanceId_eq (env : Env) (calls : List Call) :
    (FindInstanceId env calls).ret =
      ((match env.getMetadata calls "instance-id" with
        | .ok v => v
        | .error _ => "i-01d5db425dc49f060"), none)
    ∧ (FindInstanceId env calls).calls = calls ++ [Call.getMetadata "instance-id"] := by
  unfold FindInstanceId
  cases env.getMetadata calls "instance-id" <;> exact ⟨rfl, rfl⟩

/-- With `DEV_DEBUG` set, `FindAZ` never fails: it returns the answer of the
"placement/availability-zone" query, or "NO_AZ" when the query fails. -/
theorem FindAZ_eq (env : Env) (calls : List Call) :
    (FindAZ env calls).ret =
      ((match env.getMetadata calls "placement/availability-zone" with
        | .ok v => v
        | .error _ => "NO_AZ"), none)
    ∧ (FindAZ env calls).calls = calls ++ [Call.getMetadata "placement/availability-zone"] := by
  unfold FindAZ
  cases env.getMetadata calls "placement/availability-zone" <;> exact ⟨rfl, rfl⟩

/-- A derived stream name is never the empty string. -/
theorem derived_name_ne_empty (name id az : String) : name ++ "-" ++ id ++ "-" ++ az ≠ "" := by
  intro h
  have hlen := congrArg String.length h
  simp only [String.length_append] at hlen
  have h1 : ("-" : String).length = 1 := rfl
  have h0 : ("" : String).length = 0 := rfl
  omega

/-! ## Derivation of the log stream name -/

/-- Claim C7.  When `log_stream` is empty and the earlier steps pass (the state file is
declared; the region is declared or its query succeeds; the instance id is declared or its
query succeeds; the priority is empty or resolved by `getLogLevel`), `LoadConfig` succeeds,
whatever the three sub-resolutions answer, with `LogStreamName` equal to name-id-az, where
id is the answer of the "instance-id" query made at that point or, if that query fails,
"i-01d5db425dc49f060"; az is the answer of the "placement/availability-zone" query or, if it
fails, "NO_AZ"; and name is the result of `FindInstanceName` for id and the resolved region,
which is "NO_NAME" whenever the lookup returns an error.  When all three fail, the name is
exactly "NO_NAME-i-01d5db425dc49f060-NO_AZ". -/
theorem LoadConfig_derived_stream (env : Env) (calls : List Call) (filename bytes : String)
    (fc : fileConfig)
    (hread : env.readFile calls filename = .ok bytes) (hdec : env.hclDecode bytes = .ok fc)
    (hstream : fc.LogStreamName = "") (hstate : fc.StateFilename ≠ "")
    (hregion : fc.AWSRegion = "" →
      ∃ region, env.region (callsAfterGroup calls filename fc) = .ok region)
    (hid : fc.EC2InstanceId = "" →
      ∃ iid, env.getMetadata (callsAfterRegion calls filename fc) "instance-id" = .ok iid)
    (hprio : fc.LogPriority = "" ∨ (getLogLevel env.rangeOrder fc.LogPriority).2 = none) :
    ∃ cfg id az name,
      (LoadConfig env calls filename).ret = (some cfg, none)
      ∧ cfg.LogStreamName = name ++ "-" ++ id ++ "-" ++ az
      ∧ id = (match env.getMetadata (callsAfterId calls filename fc) "instance-id" with
          | .ok v => v
          | .error _ => "i-01d5db425dc49f060")
      ∧ az = (match env.getMetadata
            (callsAfterId calls filename fc ++ [Call.getMetadata "instance-id"])
            "placement/availability-zone" with
          | .ok v => v
          | .error _ => "NO_AZ")
      ∧ name = (FindInstanceName env
            (callsAfterId calls filename fc ++ [Call.getMetadata "instance-id",
              Call.getMetadata "placement/availability-zone"]) id cfg.AWSRegion).ret.1
      ∧ ((FindInstanceName env
            (callsAfterId calls filename fc ++ [Call.getMetadata "instance-id",
              Call.getMetadata "placement/availability-zone"]) id cfg.AWSRegion).ret.2 ≠ none →
          name = "NO_NAME")
      ∧ ((∃ e, env.getMetadata (callsAfterId calls filename fc) "instance-id" = .error e) →
          (∃ e, env.getMetadata
            (callsAfterId calls filename fc ++ [Call.getMetadata "instance-id"])
            "placement/availability-zone" = .error e) →
          (FindInstanceName env
            (callsAfterId calls filename fc ++ [Call.getMetadata "instance-id",
              Call.getMetadata "placement/availability-zone"]) id cfg.AWSRegion).ret.2 ≠ none →
          cfg.LogStreamName = "NO_NAME-i-01d5db425dc49f060-NO_AZ") := by
  rcases LoadConfig_cases env calls filename bytes fc hread hdec with
    ⟨hs, _⟩ | ⟨_, hr, e, he, _⟩ | ⟨_, hi, _, e, _, he, _⟩ | ⟨_, hp, hlvl, _⟩
      | ⟨_, region, iid, lvl, _, _, _, hret, _⟩
  · exact absurd hs hstate
  · obtain ⟨r, hr2⟩ := hregion hr
    rw [hr2] at he; cases he
  · obtain ⟨i, hi2⟩ := hid hi
    rw [hi2] at he; cases he
  · rcases hprio with h | h
    · exact absurd h hp
    · exact absurd h hlvl
  · have hI := FindInstanceId_eq env (callsAfterId calls filename fc)
    have hZ := FindAZ_eq env (callsAfterId calls filename fc ++ [Call.getMetadata "instance-id"])
    have hN := FindInstanceName_no_name env
      (callsAfterId calls filename fc ++ [Call.getMetadata "instance-id",
        Call.getMetadata "placement/availability-zone"])
      (match env.getMetadata (callsAfterId calls filename fc) "instance-id" with
        | .ok v => v
        | .error _ => "i-01d5db425dc49f060") region
    rw [hI.2, hI.1] at hret
    rw [hZ.2, hZ.1] at hret
    simp only [hstream, if_true, List.append_assoc, List.singleton_append] at hret
    refine ⟨_,
      (match env.getMetadata (callsAfterId calls filename fc) "instance-id" with
        | .ok v => v
        | .error _ => "i-01d5db425dc49f060"),
      (match env.getMetadata
          (callsAfterId calls filename fc ++ [Call.getMetadata "instance-id"])
          "placement/availability-zone" with
        | .ok v => v
        | .error _ => "NO_AZ"),
      (FindInstanceName env
        (callsAfterId calls filename fc ++ [Call.getMetadata "instance-id",
          Call.getMetadata "placement/availability-zone"])
        (match env.getMetadata (callsAfterId calls filename fc) "instance-id" with
          | .ok v => v
          | .error _ => "i-01d5db425dc49f060") region).ret.1,
      hret, rfl, rfl, rfl, rfl, hN, ?_⟩
    rintro ⟨e1, he1⟩ ⟨e2, he2⟩ hne
    show _ ++ "-" ++ _ ++ "-" ++ _ = _
    rw [hN hne, he1, he2]
    rfl

/-- Claim C7 at a machine outside the cloud: region, instance id and state file are
declared, and the three sub-resolutions all fail. -/
theorem LoadConfig_derived_stream_witness :
    ∃ cfg, (LoadConfig (stubEnv fcOffCloud metadataDown (.error "down") (.error "down"))
        [] "conf.hcl").ret = (some cfg, none)
      ∧ cfg.LogStreamName = "NO_NAME-i-01d5db425dc49f060-NO_AZ" := by
  obtain ⟨cfg, id, az, name, hret, _, _, _, _, _, hall⟩ :=
    LoadConfig_derived_stream (stubEnv fcOffCloud metadataDown (.error "down") (.error "down"))
      [] "conf.hcl" "text" fcOffCloud rfl rfl rfl (by decide)
      (fun h => absurd h (by decide)) (fun h => absurd h (by decide)) (Or.inl rfl)
  exact ⟨cfg, hret, hall ⟨_, rfl⟩ ⟨_, rfl⟩ (by simp [FindInstanceName, stubEnv])⟩

/-! ## The invariant of a returned configuration -/

/-- The two shapes of the result of `LoadConfig`: an error and no configuration, or a
configuration and no error. -/
theorem LoadConfig_ret_shape (env : Env) (calls : List Call) (filename : String) :
    (∃ e, (LoadConfig env calls filename).ret = (none, some e))
    ∨ (∃ cfg, (LoadConfig env calls filename).ret = (some cfg, none)) := by
  cases hread : env.readFile calls filename with
  | error e => exact Or.inl ⟨e, by simp [LoadConfig, hread]⟩
  | ok bytes =>
    cases hdec : env.hclDecode bytes with
    | error e => exact Or.inl ⟨e, by simp [LoadConfig, hread, hdec]⟩
    | ok fc =>
      rcases LoadConfig_cases env calls filename bytes fc hread hdec with
        ⟨_, h, _⟩ | ⟨_, _, _, _, h, _⟩ | ⟨_, _, _, _, _, _, h, _⟩
          | ⟨_, _, _, _, _, _, _, h, _⟩ | ⟨_, _, _, _, _, _, _, h, _⟩
      · exact Or.inl ⟨_, h⟩
      · exact Or.inl ⟨_, h⟩
      · exact Or.inl ⟨_, h⟩
      · exact Or.inl ⟨_, h⟩
      · exact Or.inr ⟨_, h⟩

/-- Claim C9, as stated, fails.  With settings that declare only the state file and a
metadata service that answers every query with the empty string, `LoadConfig` succeeds with
a configuration whose `AWSRegion`, `EC2InstanceId` and `LogGroupName` are empty. -/
theorem LoadConfig_blank_answers :
    ∃ cfg, (LoadConfig (stubEnv fcStateOnly metadataBlank (.ok "") (.error "down"))
        [] "conf.hcl").ret = (some cfg, none)
      ∧ cfg.AWSRegion = "" ∧ cfg.EC2InstanceId = "" ∧ cfg.LogGroupName = "" :=
  ⟨{ AWSCredentials := some [Provider.EnvProvider, Provider.EC2RoleProvider],
     AWSRegion := "", EC2InstanceId := "", LogGroupName := "", LogStreamName := "NO_NAME--",
     LogPriority := DEBUG, StateFilename := "/var/state", JournalDir := "", BufferSize := 100 },
    by decide, rfl, rfl, rfl⟩

/-- Claim C9, amended.  Whenever `LoadConfig` returns an error it returns no configuration;
and in every configuration it returns, `LogStreamName` and `StateFilename` are not empty and
`BufferSize` is not zero, whatever the collaborators do, while each of `LogGroupName`,
`AWSRegion` and `EC2InstanceId` is not empty provided that the metadata service never
answers the corresponding query ("security-groups", region, "instance-id") successfully
with the empty string. -/
theorem LoadConfig_invariant (env : Env) (calls : List Call) (filename : String) :
    ((LoadConfig env calls filename).ret.2 ≠ none → (LoadConfig env calls filename).ret.1 = none)
    ∧ ∀ cfg, (LoadConfig env calls filename).ret.1 = some cfg →
        (LoadConfig env calls filename).ret.2 = none
        ∧ cfg.LogStreamName ≠ "" ∧ cfg.StateFilename ≠ "" ∧ cfg.BufferSize ≠ 0
        ∧ ((∀ h, env.getMetadata h "security-groups" ≠ .ok "") → cfg.LogGroupName ≠ "")
        ∧ ((∀ h, env.region h ≠ .ok "") → cfg.AWSRegion ≠ "")
        ∧ ((∀ h, env.getMetadata h "instance-id" ≠ .ok "") → cfg.EC2InstanceId ≠ "") := by
  constructor
  · intro hne
    rcases LoadConfig_ret_shape env calls filename with ⟨e, h⟩ | ⟨cfg, h⟩
    · rw [h]
    · rw [h] at hne; exact absurd rfl hne
  · intro cfg hcfg
    cases hread : env.readFile calls filename with
    | error e =>
      have h : (LoadConfig env calls filename).ret = (none, some e) := by
        simp [LoadConfig, hread]
      rw [h] at hcfg; cases hcfg
    | ok bytes =>
      cases hdec : env.hclDecode bytes with
      | error e =>
        have h : (LoadConfig env calls filename).ret = (none, some e) := by
          simp [LoadConfig, hread, hdec]
        rw [h] at hcfg; cases hcfg
      | ok fc =>
        rcases LoadConfig_cases env calls filename bytes fc hread hdec with
          ⟨_, h, _⟩ | ⟨_, _, _, _, h, _⟩ | ⟨_, _, _, _, _, _, h, _⟩
            | ⟨_, _, _, _, _, _, _, h, _⟩ | ⟨hstate, region, iid, lvl, hr, hi, _, h, _⟩
        · rw [h] at hcfg; cases hcfg
        · rw [h] at hcfg; cases hcfg
        · rw [h] at hcfg; cases hcfg
        · rw [h] at hcfg; cases hcfg
        · rw [h] at hcfg ⊢
          cases hcfg
          refine ⟨rfl, ?_, hstate, ?_, ?_, ?_, ?_⟩
          · by_cases hs : fc.LogStreamName = ""
            · simp only [hs, if_true]
              exact derived_name_ne_empty _ _ _
            · simp [hs]
          · by_cases hb : fc.BufferSize = 0
            · simp [hb]
            · simp [hb]
          · intro hmeta
            by_cases hg : fc.LogGroupName = ""
            · simp only [hg, if_true]
              cases hq : env.getMetadata (calls ++ [Call.readFile filename]) "security-groups" with
              | error e => simp
              | ok group =>
                simp only
                rintro rfl
                exact hmeta _ hq
            · simp [hg]
          · intro hreg
            by_cases hr0 : fc.AWSRegion = ""
            · simp only [hr0, if_true] at hr
              show region ≠ ""
              rintro rfl
              exact hreg _ hr
            · simp only [hr0, if_false] at hr
              show region ≠ ""
              rw [hr]; exact hr0
          · intro hmeta
            by_cases hi0 : fc.EC2InstanceId = ""
            · simp only [hi0, if_true] at hi
              show iid ≠ ""
              rintro rfl
              exact hmeta _ hi
            · simp only [hi0, if_false] at hi
              show iid ≠ ""
              rw [hi]; exact hi0

/-- Claim C9, amended, at a machine outside the cloud whose metadata service cannot be
reached. -/
theorem LoadConfig_invariant_witness :
    (LoadConfig (stubEnv fcOffCloud metadataDown (.error "down") (.error "down"))
        [] "conf.hcl").ret.1 = some cfgOffCloud
    ∧ cfgOffCloud.LogStreamName ≠ "" ∧ cfgOffCloud.StateFilename ≠ ""
    ∧ cfgOffCloud.BufferSize ≠ 0 ∧ cfgOffCloud.LogGroupName ≠ ""
    ∧ cfgOffCloud.AWSRegion ≠ "" ∧ cfgOffCloud.EC2InstanceId ≠ "" :=
  have h := (LoadConfig_invariant
    (stubEnv fcOffCloud metadataDown (.error "down") (.error "down")) [] "conf.hcl").2
    cfgOffCloud (by decide)
  ⟨by decide, h.2.1, h.2.2.1, h.2.2.2.1,
    h.2.2.2.2.1 (fun _ hq => by cases hq),
    h.2.2.2.2.2.1 (fun _ hq => by cases hq),
    h.2.2.2.2.2.2 (fun _ hq => by cases hq)⟩

/-! ## The instance id in a derived log stream name -/

/-- In a string of the form name-id-az, the characters of id occur consecutively. -/
theorem id_occurs_in_derived (stream name id az : String)
    (h : stream = name ++ "-" ++ id ++ "-" ++ az) : id.data <:+: stream.data := by
  subst h
  refine ⟨(name ++ "-").data, ("-" ++ az).data, ?_⟩
  simp [String.data_append]

/-- Claim C10, as stated, fails.  With settings that declare `ec2_instance_id = "i-abc"`
and leave `log_stream` empty, and a metadata service that cannot be reached, `LoadConfig`
succeeds with `EC2InstanceId = "i-abc"` while the stream name is derived from, and the
instance-name lookup is made for, the canned instance id: the stream name is not of the
form name-i-abc-az and no lookup is made for "i-abc". -/
theorem LoadConfig_stream_id_differs :
    fcOffCloud.LogStreamName = ""
    ∧ (LoadConfig (stubEnv fcOffCloud metadataDown (.error "down") (.error "down"))
        [] "conf.hcl").ret = (some cfgOffCloud, none)
    ∧ cfgOffCloud.EC2InstanceId = "i-abc"
    ∧ cfgOffCloud.LogStreamName = "NO_NAME" ++ "-" ++ "i-01d5db425dc49f060" ++ "-" ++ "NO_AZ"
    ∧ (¬ ∃ name az,
        cfgOffCloud.LogStreamName = name ++ "-" ++ cfgOffCloud.EC2InstanceId ++ "-" ++ az)
    ∧ Call.describeInstances cfgOffCloud.EC2InstanceId cfgOffCloud.AWSRegion ∉
        (LoadConfig (stubEnv fcOffCloud metadataDown (.error "down") (.error "down"))
          [] "conf.hcl").calls
    ∧ Call.describeInstances "i-01d5db425dc49f060" "us-west-2" ∈
        (LoadConfig (stubEnv fcOffCloud metadataDown (.error "down") (.error "down"))
          [] "conf.hcl").calls := by
  refine ⟨rfl, by decide, rfl, by decide, ?_, by decide, by decide⟩
  rintro ⟨name, az, h⟩
  have hin := id_occurs_in_derived _ name _ az h
  revert hin
  decide

/-- Claim C10, amended.  Whenever `LoadConfig` succeeds with a derived log stream name
(`log_stream` empty), `LogStreamName` is name-id-az and the instance-name lookup, the last
call made, is for id and the resolved region, where id is the result of `FindInstanceId`
called after the instance-id step (the answer of a fresh "instance-id" query, or the canned
id when that query fails), az is the result of `FindAZ` and name the result of
`FindInstanceName`.  This id is the configuration's `EC2InstanceId` when `ec2_instance_id`
is not declared and the metadata service answers the second "instance-id" query as it
answered the first. -/
theorem LoadConfig_stream_instance_id (env : Env) (calls : List Call)
    (filename bytes : String) (fc : fileConfig) (cfg : Config)
    (hread : env.readFile calls filename = .ok bytes) (hdec : env.hclDecode bytes = .ok fc)
    (hstream : fc.LogStreamName = "")
    (hok : (LoadConfig env calls filename).ret.1 = some cfg) :
    ∃ id az name,
      (FindInstanceId env (callsAfterId calls filename fc)).ret = (id, none)
      ∧ (FindAZ env (callsAfterId calls filename fc ++ [Call.getMetadata "instance-id"])).ret
          = (az, none)
      ∧ (FindInstanceName env
          (callsAfterId calls filename fc ++ [Call.getMetadata "instance-id",
            Call.getMetadata "placement/availability-zone"]) id cfg.AWSRegion).ret.1 = name
      ∧ cfg.LogStreamName = name ++ "-" ++ id ++ "-" ++ az
      ∧ (LoadConfig env calls filename).calls =
          callsAfterId calls filename fc ++ [Call.getMetadata "instance-id",
            Call.getMetadata "placement/availability-zone",
            Call.describeInstances id cfg.AWSRegion]
      ∧ (fc.EC2InstanceId = "" →
          env.getMetadata (callsAfterId calls filename fc) "instance-id"
            = env.getMetadata (callsAfterRegion calls filename fc) "instance-id" →
          id = cfg.EC2InstanceId) := by
  rcases LoadConfig_cases env calls filename bytes fc hread hdec with
    ⟨_, h, _⟩ | ⟨_, _, _, _, h, _⟩ | ⟨_, _, _, _, _, _, h, _⟩
      | ⟨_, _, _, _, _, _, _, h, _⟩ | ⟨_, region, iid, lvl, _, hi, _, h, hcalls⟩
  · rw [h] at hok; cases hok
  · rw [h] at hok; cases hok
  · rw [h] at hok; cases hok
  · rw [h] at hok; cases hok
  · have hI := FindInstanceId_eq env (callsAfterId calls filename fc)
    have hZ := FindAZ_eq env (callsAfterId calls filename fc ++ [Call.getMetadata "instance-id"])
    rw [hI.2, hI.1, hZ.2, hZ.1] at h
    rw [hI.2, hI.1, hZ.2, FindInstanceName_calls] at hcalls
    simp only [hstream, if_true, List.append_assoc, List.singleton_append,
      List.cons_append, List.nil_append] at h hcalls
    rw [h] at hok
    cases hok
    refine ⟨_, _, _, hI.1, hZ.1, rfl, rfl, hcalls, ?_⟩
    intro hi0 hsame
    simp only [hi0, if_true] at hi
    show _ = iid
    rw [hsame, hi]

/-- Claim C10, amended, at settings that declare only the state file, with a metadata
service that answers the region query with "us-west-2" and every other query with
"i-0123". -/
theorem LoadConfig_stream_instance_id_witness :
    ∃ cfg id az name,
      (LoadConfig (stubEnv fcStateOnly (fun _ => .ok "i-0123") (.ok "us-west-2")
        (.error "down")) [] "conf.hcl").ret.1 = some cfg
      ∧ cfg.LogStreamName = name ++ "-" ++ id ++ "-" ++ az
      ∧ id = cfg.EC2InstanceId ∧ id = "i-0123" := by
  obtain ⟨id, az, name, hid, _, _, hname, _, hsame⟩ :=
    LoadConfig_stream_instance_id
      (stubEnv fcStateOnly (fun _ => .ok "i-0123") (.ok "us-west-2") (.error "down"))
      [] "conf.hcl" "text" fcStateOnly
      { AWSCredentials := some [Provider.EnvProvider, Provider.EC2RoleProvider],
        AWSRegion := "us-west-2", EC2InstanceId := "i-0123", LogGroupName := "i-0123",
        LogStreamName := "NO_NAME-i-0123-i-0123", LogPriority := DEBUG,
        StateFilename := "/var/state", JournalDir := "", BufferSize := 100 }
      rfl rfl rfl (by decide)
  exact ⟨_, id, az, name, by decide, hname, hsame rfl rfl, (Prod.mk.inj hid).1.symm⟩

end JournaldCloudwatchLogs
